import Mathlib

set_option autoImplicit false

/-!
Shallow embedding of the ORM core of the `nango` repository
(`src/api/src/core/model.ts`, `src/api/src/core/fields` and
`src/api/src/apps/auth/permissionService.ts`): JavaScript runtime values,
the `Field` descriptor hierarchy, the lazy `QuerySet` query builder, the
`Model` active-record save/delete paths, the model registry and the
permission service.  Theorems at the end settle the specification claims.
-/

namespace Nango

/-! ### JavaScript runtime values at the ORM boundary

`Value.fieldRef` stands for an unassigned `Field` descriptor object still
sitting in a model attribute (the code detects it via
`typeof value === 'object' && 'fieldName' in value`). -/

inductive Value where
  | undefined
  | null
  | bool (b : Bool)
  | int (n : Int)
  | str (s : String)
  | fieldRef
deriving DecidableEq, Repr

/-- JavaScript truthiness of a `Value` (objects are truthy, `0`, `''`,
`null`, `undefined` are falsy). -/
def truthy : Value → Bool
  | .undefined => false
  | .null => false
  | .bool b => b
  | .int n => n != 0
  | .str s => s != ""
  | .fieldRef => true

/-- A field's `default` option: either a plain value or a zero-argument
producer function.  A producer is modelled as a function of the save-time
tick, so that "invoked fresh on every save" is observable. -/
inductive Default where
  | val (v : Value)
  | func (f : Nat → Value)

/-- `FieldOptions` of `src/api/src/core/fields` (`nullable` defaults to
`false` in the `Field` constructor). -/
structure FieldOptions where
  primaryKey : Bool := false
  unique : Bool := false
  nullable : Bool := false
  autoIncrement : Bool := false
  maxLength : Option Nat := none
  dflt : Option Default := none
  onDelete : Option String := none
  onUpdate : Option String := none

/-- The concrete `Field` subclasses of the repository. -/
inductive FieldKind where
  | char | text | integer | float | boolean | dateTime | date | email | auto | foreignKey
deriving DecidableEq, Repr

/-- `field.constructor.name` as used by the admin registry. -/
def FieldKind.constructorName : FieldKind → String
  | .char => "CharField"
  | .text => "TextField"
  | .integer => "IntegerField"
  | .float => "FloatField"
  | .boolean => "BooleanField"
  | .dateTime => "DateTimeField"
  | .date => "DateField"
  | .email => "EmailField"
  | .auto => "AutoField"
  | .foreignKey => "ForeignKey"

/-- A `Field` descriptor: concrete kind, options, and (for `ForeignKey`)
the related model name. -/
structure Field where
  kind : FieldKind
  options : FieldOptions
  relatedModel : Option String := none

/-- `new AutoField()`: `primaryKey: true, autoIncrement: true` merged over
the base constructor's `nullable: false`. -/
def autoField : Field :=
  { kind := .auto, options := { primaryKey := true, autoIncrement := true } }

/-! ### Association-list utilities

JavaScript objects and `Map`s keep insertion order; setting an existing
key updates it in place, a new key is appended. -/

/-- `obj[k] = v` / `Map.set`: update in place, else append. -/
def assocSet {α : Type} (l : List (String × α)) (k : String) (v : α) :
    List (String × α) :=
  match l with
  | [] => [(k, v)]
  | (k', v') :: rest => if k' = k then (k, v) :: rest else (k', v') :: assocSet rest k v

/-- Object spread `{...l, ...updates}` / `Object.assign(l, updates)`. -/
def assocMerge {α : Type} (l updates : List (String × α)) : List (String × α) :=
  updates.foldl (fun acc kv => assocSet acc kv.1 kv.2) l

/-! ### QuerySet: lazy builder state and query compilation -/

inductive Dir where
  | ASC | DESC
deriving DecidableEq, Repr

def Dir.render : Dir → String
  | .ASC => "ASC"
  | .DESC => "DESC"

/-- `QueryOptions` of `model.ts`. -/
structure QueryOptions where
  limit : Option Int := none
  offset : Option Int := none
  orderBy : Option String := none
  orderDirection : Option Dir := none

/-- Accumulated `QuerySet` state, bound to one model (its table name and
declared fields). -/
structure QuerySet where
  tableName : String
  fields : List (String × Field)
  filters : List (String × Value) := []
  options : QueryOptions := {}

/-- JavaScript truthiness of `this.options.limit` / `offset` (a number:
`0` and `undefined` are falsy). -/
def truthyNum : Option Int → Bool
  | none => false
  | some n => n != 0

/-- JavaScript truthiness of `this.options.orderBy` (a string: `''` and
`undefined` are falsy). -/
def truthyStr : Option String → Bool
  | none => false
  | some s => s != ""

/-- `QuerySet.filter`: `this.filters = { ...this.filters, ...filters }`. -/
def QuerySet.filterBy (qs : QuerySet) (filters : List (String × Value)) : QuerySet :=
  { qs with filters := assocMerge qs.filters filters }

/-- `QuerySet.orderBy(field, direction = 'ASC')`. -/
def QuerySet.orderByField (qs : QuerySet) (field : String) (direction : Dir := .ASC) :
    QuerySet :=
  { qs with options :=
      { qs.options with orderBy := some field, orderDirection := some direction } }

/-- `QuerySet.limit(count)`. -/
def QuerySet.limitTo (qs : QuerySet) (count : Int) : QuerySet :=
  { qs with options := { qs.options with limit := some count } }

/-- `QuerySet.offset(count)`. -/
def QuerySet.offsetBy (qs : QuerySet) (count : Int) : QuerySet :=
  { qs with options := { qs.options with offset := some count } }

/-- A prepared statement: SQL text plus positional parameters. -/
structure Stmt where
  sql : String
  params : List Value
deriving DecidableEq, Repr

/-- The `key = ?` conditions, one per filter key, in insertion order. -/
def whereConditions (filters : List (String × Value)) : List String :=
  filters.map (fun kv => kv.1 ++ " = ?")

/-- The parameters pushed while building the conditions (same order). -/
def filterParams (filters : List (String × Value)) : List Value :=
  filters.map (fun kv => kv.2)

/-- What the `if (Object.keys(this.filters).length > 0)` block appends. -/
def whereClause (filters : List (String × Value)) : String :=
  if filters.length > 0 then
    " WHERE " ++ String.intercalate " AND " (whereConditions filters)
  else ""

/-- What the `if (this.options.orderBy)` block appends
(`this.options.orderDirection || 'ASC'`). -/
def orderClause (o : QueryOptions) : String :=
  if truthyStr o.orderBy then
    " ORDER BY " ++ o.orderBy.getD "" ++ " " ++
      (match o.orderDirection with
       | some d => d.render
       | none => "ASC")
  else ""

/-- What the `if (this.options.limit)` block appends. -/
def limitClause (o : QueryOptions) : String :=
  if truthyNum o.limit then " LIMIT " ++ toString (o.limit.getD 0) else ""

/-- What the `if (this.options.offset)` block appends. -/
def offsetClause (o : QueryOptions) : String :=
  if truthyNum o.offset then " OFFSET " ++ toString (o.offset.getD 0) else ""

/-- `QuerySet.all()` query compilation (`model.ts` lines 42-70): base
`SELECT *`, then the WHERE / ORDER BY / LIMIT / OFFSET blocks, each
appended under the JavaScript-truthiness guard of the source. -/
def QuerySet.allQuery (qs : QuerySet) : Stmt :=
  ⟨"SELECT * FROM " ++ qs.tableName ++ whereClause qs.filters ++
     orderClause qs.options ++ limitClause qs.options ++ offsetClause qs.options,
   filterParams qs.filters⟩

/-- `QuerySet.count()` query compilation. -/
def QuerySet.countQuery (qs : QuerySet) : Stmt :=
  ⟨"SELECT COUNT(*) as count FROM " ++ qs.tableName ++ whereClause qs.filters,
   filterParams qs.filters⟩

/-- `QuerySet.delete()` query compilation. -/
def QuerySet.deleteQuery (qs : QuerySet) : Stmt :=
  ⟨"DELETE FROM " ++ qs.tableName ++ whereClause qs.filters,
   filterParams qs.filters⟩

example :
    QuerySet.allQuery
      { tableName := "posts", fields := [],
        filters := [("a", .int 1), ("b", .str "x")],
        options := { limit := some 5, offset := some 2,
                     orderBy := some "a", orderDirection := some .DESC } } =
      ⟨"SELECT * FROM posts WHERE a = ? AND b = ? ORDER BY a DESC LIMIT 5 OFFSET 2",
       [.int 1, .str "x"]⟩ := by
  decide

/-! ### Field constraint fragments (`fields` — `Field.getConstraints`) -/

/-- JavaScript template-literal rendering `${x}` of a non-string,
non-boolean default value. -/
def renderVerbatim : Value → String
  | .undefined => "undefined"
  | .null => "null"
  | .bool b => if b then "true" else "false"
  | .int n => toString n
  | .str s => s
  | .fieldRef => "[object Object]"

/-- `Field.getConstraints()` (fields source, lines 378-408): pushes of the
constraint markers in source order, then `join(' ')`. -/
def Field.getConstraints (o : FieldOptions) : String :=
  let constraints : List String := []
  let constraints :=
    if o.primaryKey then constraints ++ ["PRIMARY KEY"] else constraints
  let constraints :=
    if o.autoIncrement then constraints ++ ["AUTOINCREMENT"] else constraints
  let constraints :=
    if o.unique then constraints ++ ["UNIQUE"] else constraints
  let constraints :=
    if !o.nullable && !o.primaryKey then constraints ++ ["NOT NULL"] else constraints
  let constraints :=
    match o.dflt with
    | none => constraints
    | some (.func _) => constraints
    | some (.val (.str s)) => constraints ++ ["DEFAULT '" ++ s ++ "'"]
    | some (.val (.bool b)) => constraints ++ ["DEFAULT " ++ (if b then "1" else "0")]
    | some (.val v) => constraints ++ ["DEFAULT " ++ renderVerbatim v]
  String.intercalate " " constraints

/-- The constraints fragment as worded by the specification: the ordered
marker list — primary-key, auto-increment, uniqueness, not-null
(suppressed when nullable or primary-key) — followed by a literal default
clause (strings single-quoted, booleans as 1/0, others verbatim, callable
defaults never embedded). -/
def constraintsSpec (o : FieldOptions) : String :=
  String.intercalate " "
    ((if o.primaryKey then ["PRIMARY KEY"] else []) ++
     (if o.autoIncrement then ["AUTOINCREMENT"] else []) ++
     (if o.unique then ["UNIQUE"] else []) ++
     (if o.nullable || o.primaryKey then [] else ["NOT NULL"]) ++
     (match o.dflt with
      | some (.val (.str s)) => ["DEFAULT '" ++ s ++ "'"]
      | some (.val (.bool b)) => ["DEFAULT " ++ (if b then "1" else "0")]
      | some (.val v) => ["DEFAULT " ++ renderVerbatim v]
      | some (.func _) => []
      | none => []))

/-! ### Model instance state and `Model.save()` value resolution -/

/-- A model instance: its JavaScript properties (the `id` property and the
declared-field attributes; an unassigned declared attribute holds its
`Field` descriptor, i.e. `Value.fieldRef`). -/
structure Instance where
  attrs : List (String × Value) := []
deriving DecidableEq, Repr

/-- `this[k]` — a property never set reads as `undefined`. -/
def Instance.getAttr (inst : Instance) (k : String) : Value :=
  (List.lookup k inst.attrs).getD .undefined

/-- `this.id`. -/
def Instance.idVal (inst : Instance) : Value :=
  inst.getAttr "id"

/-- Evaluating a field default at save time: a plain value is used as-is,
a producer function is invoked at the current save tick. -/
def applyDefault (d : Default) (tick : Nat) : Value :=
  match d with
  | .val v => v
  | .func f => f tick

/-- Boolean-to-integer coercion at the storage boundary
(`model.ts` lines 252-257). -/
def coerceStored : Value → Value
  | .bool b => .int (if b then 1 else 0)
  | w => w

/-- Per-field value resolution inside `Model.save()` (`model.ts` lines
225-257), mirroring the source's three steps; `none` models the
`continue` that skips the column. -/
def resolveField (opts : FieldOptions) (v : Value) (tick : Nat) : Option Value :=
  let step1 : Option Value :=
    match v with
    | .fieldRef =>
      match opts.dflt with
      | some d => some (applyDefault d tick)
      | none => none
    | w => some w
  match step1 with
  | none => none
  | some v1 =>
    let v2 :=
      match v1, opts.dflt with
      | .undefined, some d => applyDefault d tick
      | .null, some d => applyDefault d tick
      | w, _ => w
    some (coerceStored v2)

/-- The `data` record assembled by `Model.save()`: one entry per declared
non-`id` field whose resolution does not skip the column. -/
def saveData (fields : List (String × Field)) (inst : Instance) (tick : Nat) :
    List (String × Value) :=
  (fields.filter (fun kv => kv.1 != "id")).filterMap fun kv =>
    (resolveField kv.2.options (inst.getAttr kv.1) tick).map fun v => (kv.1, v)

/-! ### External SQLite database model

The embedded database is an external collaborator; the executor below
models just the statement forms this layer emits. -/

abbrev Row := List (String × Value)

/-- Database state: stored rows (each carrying its `id` column) plus the
next rowid handed out on insert. -/
structure DB where
  rows : List Row := []
  nextId : Int := 1
deriving DecidableEq, Repr

/-- SQL `=` three-valued comparison collapsed to matching: a comparison
against NULL never matches. -/
def sqlEq (a b : Value) : Bool :=
  match a, b with
  | .null, _ => false
  | _, .null => false
  | x, y => x == y

/-- One row against the conjunction of equality filters. -/
def rowMatches (row : Row) (filters : List (String × Value)) : Bool :=
  filters.all fun kv =>
    match List.lookup kv.1 row with
    | some v => sqlEq v kv.2
    | none => false

/-- SQLite storage-class rank: NULL before numeric before text. -/
def valueRank : Value → Nat
  | .undefined => 0
  | .null => 0
  | .bool _ => 1
  | .int _ => 1
  | .str _ => 2
  | .fieldRef => 3

def valueNum : Value → Int
  | .bool b => if b then 1 else 0
  | .int n => n
  | _ => 0

/-- SQLite ordering of stored values. -/
def sqliteLe (a b : Value) : Bool :=
  if valueRank a < valueRank b then true
  else if valueRank b < valueRank a then false
  else
    match a, b with
    | .str s, .str t => decide (s ≤ t)
    | x, y => decide (valueNum x ≤ valueNum y)

def insertSorted (key : String) (r : Row) : List Row → List Row
  | [] => [r]
  | x :: xs =>
    if sqliteLe ((List.lookup key r).getD .null) ((List.lookup key x).getD .null) then
      r :: x :: xs
    else x :: insertSorted key r xs

def sortRows (key : String) (rows : List Row) : List Row :=
  rows.foldr (insertSorted key) []

/-- Model of SQLite executing the compiled `SELECT *`: equality-filter the
rows, order them, then apply OFFSET and LIMIT (a negative LIMIT means
unlimited in SQLite). -/
def selectRows (db : DB) (qs : QuerySet) : List Row :=
  let matched := db.rows.filter (fun r => rowMatches r qs.filters)
  let ordered :=
    if truthyStr qs.options.orderBy then
      let sorted := sortRows (qs.options.orderBy.getD "") matched
      match qs.options.orderDirection with
      | some .DESC => sorted.reverse
      | _ => sorted
    else matched
  let afterOffset :=
    if truthyNum qs.options.offset then ordered.drop (qs.options.offset.getD 0).toNat
    else ordered
  if truthyNum qs.options.limit then
    let n := qs.options.limit.getD 0
    if n < 0 then afterOffset else afterOffset.take n.toNat
  else afterOffset

/-- Fresh-instance properties: each declared non-`id` field holds its
`Field` descriptor object. -/
def freshAttrs (fields : List (String × Field)) : List (String × Value) :=
  (fields.filter (fun kv => kv.1 != "id")).map (fun kv => (kv.1, Value.fieldRef))

/-- Row hydration (`model.ts` lines 72-76): `Object.assign` of the row's
columns onto a freshly constructed instance. -/
def hydrate (fields : List (String × Field)) (row : Row) : Instance :=
  { attrs := assocMerge (freshAttrs fields) row }

/-! ### Model active record: `save()` and `delete()` -/

/-- `Model.save()` (`model.ts` lines 215-281): assemble `data`, then
branch on the truthiness of `this.id` — update when truthy, insert (and
populate `this.id` with the generated rowid) when not. -/
def Model.save (fields : List (String × Field)) (tableName : String)
    (inst : Instance) (db : DB) (tick : Nat) : Instance × DB × Stmt :=
  let data := saveData fields inst tick
  if truthy inst.idVal then
    let setClause := String.intercalate ", " (data.map (fun kv => kv.1 ++ " = ?"))
    let values := data.map (fun kv => kv.2) ++ [inst.idVal]
    let newRows := db.rows.map fun r =>
      if sqlEq ((List.lookup "id" r).getD .undefined) inst.idVal then assocMerge r data else r
    (inst, { db with rows := newRows },
     ⟨"UPDATE " ++ tableName ++ " SET " ++ setClause ++ " WHERE id = ?", values⟩)
  else
    let keys := data.map (fun kv => kv.1)
    let placeholders := String.intercalate ", " (keys.map (fun _ => "?"))
    let values := data.map (fun kv => kv.2)
    let row := ("id", Value.int db.nextId) :: data
    ({ attrs := assocSet inst.attrs "id" (.int db.nextId) },
     { rows := db.rows ++ [row], nextId := db.nextId + 1 },
     ⟨"INSERT INTO " ++ tableName ++ " (" ++ String.intercalate ", " keys ++
        ") VALUES (" ++ placeholders ++ ")", values⟩)

/-- Model of SQLite executing `DELETE FROM <table> WHERE id = ?`. -/
def deleteById (db : DB) (idv : Value) : DB :=
  { rows := db.rows.filter (fun r => !sqlEq ((List.lookup "id" r).getD .undefined) idv),
    nextId := db.nextId }

/-- `Model.delete()` (`model.ts` lines 283-294): throws on a falsy
`this.id`, otherwise executes `DELETE FROM <table> WHERE id = ?` and
leaves the instance itself untouched. -/
def Model.delete (tableName : String) (inst : Instance) (db : DB) :
    Except String (Instance × DB × Stmt) :=
  if !truthy inst.idVal then .error "Cannot delete unsaved object"
  else .ok (inst, deleteById db inst.idVal,
    ⟨"DELETE FROM " ++ tableName ++ " WHERE id = ?", [inst.idVal]⟩)

/-! ### ORM calls as observed at the database boundary

Each operation is given as result, database state after the call, and the
list of statements executed during the call. -/

def QuerySet.filterRun (qs : QuerySet) (fs : List (String × Value)) (db : DB) :
    QuerySet × DB × List Stmt :=
  (qs.filterBy fs, db, [])

def QuerySet.orderByRun (qs : QuerySet) (f : String) (d : Dir) (db : DB) :
    QuerySet × DB × List Stmt :=
  (qs.orderByField f d, db, [])

def QuerySet.limitRun (qs : QuerySet) (n : Int) (db : DB) :
    QuerySet × DB × List Stmt :=
  (qs.limitTo n, db, [])

def QuerySet.offsetRun (qs : QuerySet) (n : Int) (db : DB) :
    QuerySet × DB × List Stmt :=
  (qs.offsetBy n, db, [])

/-- `all()`: prepares and executes exactly the compiled statement,
hydrating each result row. -/
def QuerySet.allRun (qs : QuerySet) (db : DB) :
    List Instance × DB × List Stmt :=
  ((selectRows db qs).map (hydrate qs.fields), db, [qs.allQuery])

/-- `first()`: `this.limit(1).all()`, collapsed to single-or-absent. -/
def QuerySet.firstRun (qs : QuerySet) (db : DB) :
    Option Instance × DB × List Stmt :=
  let r1 := qs.limitRun 1 db
  let r2 := r1.1.allRun r1.2.1
  (r2.1.head?, r2.2.1, r1.2.2 ++ r2.2.2)

/-- `count()`: executes the compiled `SELECT COUNT(*)`. -/
def QuerySet.countRun (qs : QuerySet) (db : DB) : Int × DB × List Stmt :=
  (((db.rows.filter (fun r => rowMatches r qs.filters)).length : Int), db,
   [qs.countQuery])

/-- `delete()` (QuerySet terminal): executes the compiled `DELETE`,
returning the affected-row count. -/
def QuerySet.deleteRun (qs : QuerySet) (db : DB) : Int × DB × List Stmt :=
  (((db.rows.filter (fun r => rowMatches r qs.filters)).length : Int),
   { db with rows := db.rows.filter (fun r => !rowMatches r qs.filters) },
   [qs.deleteQuery])

/-! ### Model registry (`adminRegistry.ts`) and `Model.getFields()` -/

/-- ASCII lowercasing, as applied to model names (character-wise
`toLowerCase`). -/
def jsToLowerCase (s : String) : String := ⟨s.data.map Char.toLower⟩

/-- A model class as declared in source: its class name and the
`Field`-valued properties of a fresh instance, in declaration order. -/
structure ModelDecl where
  name : String
  declaredFields : List (String × Field)

/-- `Model.getTableName()`. -/
def getTableName (decl : ModelDecl) : String :=
  jsToLowerCase decl.name ++ "s"

/-- `Model.getFields()` (`model.ts` lines 134-153): the implicit `id`
`AutoField` is inserted first, then each declared field is set (JS object
key semantics: an existing key keeps its position, a new key is
appended). -/
def getFields (decl : ModelDecl) : List (String × Field) :=
  assocMerge [("id", autoField)] decl.declaredFields

/-- `AdminOptions` of `adminRegistry.ts` (the parts the registry reads). -/
structure AdminOptions where
  appName : Option String := none
  displayName : Option String := none
  icon : Option String := none
  permissions : Option (List String) := none

/-- JavaScript `x || d` over an optional string. -/
def jsOr (o : Option String) (d : String) : String :=
  match o with
  | some s => if s = "" then d else s
  | none => d

/-- `FieldMetadata` of `adminRegistry.ts`. -/
structure FieldMetadata where
  name : String
  type : String
  required : Bool
  maxLength : Option Nat
  unique : Bool
  dflt : Option Default
  nullable : Bool
  relatedModel : Option String := none
  onDelete : Option String := none

/-- Field metadata derivation in `registerModel` (lines 203-222). -/
def mkFieldMetadata (fieldName : String) (field : Field) : FieldMetadata :=
  { name := fieldName
    type := field.kind.constructorName
    required := !field.options.nullable
    maxLength := field.options.maxLength
    unique := field.options.unique
    dflt := field.options.dflt
    nullable := field.options.nullable
    relatedModel := if field.kind == .foreignKey then field.relatedModel else none
    onDelete :=
      if field.kind == .foreignKey then some (field.options.onDelete.getD "CASCADE")
      else none }

/-- `ModelMetadata` of `adminRegistry.ts`. -/
structure ModelMetadata where
  decl : ModelDecl
  tableName : String
  appName : String
  displayName : String
  icon : String
  permissions : List String
  fields : List (String × FieldMetadata)
  adminOptions : AdminOptions

/-- The metadata `registerModel` stores for one model. -/
def mkMetadata (decl : ModelDecl) (options : AdminOptions) : ModelMetadata :=
  { decl
    tableName := getTableName decl
    appName := jsOr options.appName "General"
    displayName := jsOr options.displayName decl.name
    icon := jsOr options.icon "database"
    permissions := options.permissions.getD ["view", "add", "change", "delete"]
    fields := (getFields decl).map (fun kv => (kv.1, mkFieldMetadata kv.1 kv.2))
    adminOptions := options }

abbrev Registry := List (String × ModelMetadata)

/-- `ModelRegistry.registerModel` (`adminRegistry.ts` lines 192-237):
`Map.set` keyed by the model name. -/
def registerModel (reg : Registry) (decl : ModelDecl) (options : AdminOptions) :
    Registry :=
  assocSet reg decl.name (mkMetadata decl options)

/-- A whole bootstrap sequence of registrations, from the empty registry. -/
def registerAll (regs : List (ModelDecl × AdminOptions)) : Registry :=
  regs.foldl (fun reg r => registerModel reg r.1 r.2) []

/-! ### Permission service (`permissionService.ts`) -/

structure User where
  id : Int
  isSuperuser : Bool
deriving DecidableEq, Repr

structure Permission where
  id : Int
  codename : String
deriving DecidableEq, Repr

structure UserPermission where
  userId : Int
  permissionId : Int
deriving DecidableEq, Repr

structure UserGroup where
  userId : Int
  groupId : Int
deriving DecidableEq, Repr

structure GroupPermission where
  groupId : Int
  permissionId : Int
deriving DecidableEq, Repr

/-- The auth tables the permission service reads.  `Model.objects.get`
returns the first matching row in table order; `filter(...).all()`
returns all matching rows. -/
structure AuthDB where
  users : List User := []
  permissions : List Permission := []
  userPermissions : List UserPermission := []
  userGroups : List UserGroup := []
  groupPermissions : List GroupPermission := []
deriving DecidableEq, Repr

/-- The body of both permission loops: look the `Permission` row up by id
(`Permission.objects.get({ id })` returns the first match in table order)
and compare its codename. -/
def codenameCheck (db : AuthDB) (pid : Int) (codename : String) : Bool :=
  match db.permissions.find? (fun p => p.id == pid) with
  | some permission => permission.codename == codename
  | none => false

/-- `PermissionService.hasPermission` (`permissionService.ts` lines 7-35):
user lookup, superuser bypass, direct user permissions (early return),
then group-derived permissions. -/
def PermissionService.hasPermission (db : AuthDB) (userId : Int)
    (codename : String) : Bool :=
  match db.users.find? (fun u => u.id == userId) with
  | none => false
  | some user =>
    if user.isSuperuser then true
    else
      let userPerms := db.userPermissions.filter (fun up => up.userId == userId)
      let direct := userPerms.any fun userPerm =>
        codenameCheck db userPerm.permissionId codename
      let userGroups := db.userGroups.filter (fun ug => ug.userId == userId)
      let viaGroups := userGroups.any fun userGroup =>
        (db.groupPermissions.filter (fun gp => gp.groupId == userGroup.groupId)).any
          fun groupPerm => codenameCheck db groupPerm.permissionId codename
      direct || viaGroups

/-- `PermissionService.hasModelPermission` (lines 40-43). -/
def PermissionService.hasModelPermission (db : AuthDB) (userId : Int)
    (action : String) (modelName : String) : Bool :=
  PermissionService.hasPermission db userId (action ++ "_" ++ jsToLowerCase modelName)

/-- The specification's characterisation of a grant: the codename is
reachable through a direct `UserPermission` row, or through some group the
user belongs to. -/
def PermGranted (db : AuthDB) (userId : Int) (codename : String) : Prop :=
  (∃ up ∈ db.userPermissions, up.userId = userId ∧
    ∃ p ∈ db.permissions, p.id = up.permissionId ∧ p.codename = codename) ∨
  (∃ ug ∈ db.userGroups, ug.userId = userId ∧
    ∃ gp ∈ db.groupPermissions, gp.groupId = ug.groupId ∧
      ∃ p ∈ db.permissions, p.id = gp.permissionId ∧ p.codename = codename)

/-- The last registration carrying a given model name, if any. -/
def lastRegistration (regs : List (ModelDecl × AdminOptions)) (name : String) :
    Option (ModelDecl × AdminOptions) :=
  regs.reverse.find? (fun r => r.1.name == name)

/-! ### Concrete inputs used by witnesses and counterexamples -/

/-- `new BooleanField()` — the constructor merges `default: false`. -/
def boolField : Field :=
  { kind := .boolean, options := { dflt := some (.val (.bool false)) } }

/-- `new CharField({ maxLength: 200 })`. -/
def charField200 : Field :=
  { kind := .char, options := { maxLength := some 200 } }

/-- `getFields()` result of a `Post{title, isPublished}` model. -/
def postFields : List (String × Field) :=
  [("id", autoField), ("title", charField200), ("isPublished", boolField)]

/-- A `Post` instance after `p.isPublished = true; p.title = "Hello"`. -/
def postInst : Instance :=
  ⟨[("title", .str "Hello"), ("isPublished", .bool true)]⟩

/-- A persisted instance (id 1) with no other attributes. -/
def c3inst : Instance := ⟨[("id", .int 1)]⟩

def c3db : DB := { rows := [[("id", .int 1)]], nextId := 2 }

/-- A QuerySet that already carries `LIMIT 5`. -/
def c10qs : QuerySet :=
  { tableName := "posts", fields := [], filters := [], options := { limit := some 5 } }

/-- A QuerySet with a filter and no limit or offset. -/
def c10wqs : QuerySet :=
  { tableName := "posts", fields := [], filters := [("a", .int 1)] }

def c10wdb : DB := { rows := [[("id", .int 1), ("a", .int 1)]], nextId := 2 }

/-- `Post` declared a first time. -/
def postDecl : ModelDecl :=
  { name := "Post",
    declaredFields := [("title", charField200), ("isPublished", boolField)] }

/-- `Post` re-declared with different fields and options. -/
def postDecl2 : ModelDecl :=
  { name := "Post", declaredFields := [("title", { kind := .text, options := {} })] }

/-- Two registrations of the same model name. -/
def c5regs : List (ModelDecl × AdminOptions) :=
  [(postDecl, {}), (postDecl2, { displayName := some "Posts" })]

/-- A user (id 1, not superuser) holding only the `add_post` permission
(id 10) directly; no groups. -/
def c8db : AuthDB :=
  { users := [{ id := 1, isSuperuser := false }],
    permissions := [{ id := 10, codename := "add_post" }],
    userPermissions := [{ userId := 1, permissionId := 10 }] }

/-! ### Helper lemmas -/

theorem truthyNum_none : truthyNum none = false := rfl

theorem truthyNum_zero : truthyNum (some 0) = false := rfl

theorem truthyNum_some (n : Int) (h : n ≠ 0) : truthyNum (some n) = true := by
  simp [truthyNum, h]

theorem truthyStr_none : truthyStr none = false := rfl

theorem truthyStr_some (s : String) (h : s ≠ "") : truthyStr (some s) = true := by
  simp [truthyStr, h]

theorem lookup_assocSet_self {α : Type} (l : List (String × α)) (k : String) (v : α) :
    List.lookup k (assocSet l k v) = some v := by
  induction l with
  | nil => simp [assocSet]
  | cons x rest ih =>
    obtain ⟨k1, v1⟩ := x
    by_cases h : k1 = k
    · simp [assocSet, h]
    · simp [assocSet, h, List.lookup_cons, beq_false_of_ne (Ne.symm h), ih]

theorem lookup_assocSet_ne {α : Type} (l : List (String × α)) (k k1 : String) (v : α)
    (h : k1 ≠ k) : List.lookup k (assocSet l k1 v) = List.lookup k l := by
  induction l with
  | nil => simp [assocSet, List.lookup_cons, beq_false_of_ne (Ne.symm h)]
  | cons x rest ih =>
    obtain ⟨k2, v2⟩ := x
    by_cases h1 : k2 = k1
    · subst h1
      simp [assocSet, List.lookup_cons, beq_false_of_ne (Ne.symm h)]
    · simp only [assocSet, if_neg h1]
      by_cases h2 : k2 = k
      · subst h2
        simp [List.lookup_cons]
      · simp [List.lookup_cons, beq_false_of_ne (Ne.symm h2), ih]

theorem lookup_eq_none_of_not_mem {α : Type} (l : List (String × α)) (k : String)
    (h : k ∉ l.map Prod.fst) : List.lookup k l = none := by
  rw [List.lookup_eq_none_iff]
  intro p hp
  simp only [bne_iff_ne, ne_eq]
  intro he
  exact h (he ▸ List.mem_map_of_mem Prod.fst hp)

theorem lookup_eq_some_of_mem_nodup {α : Type} (l : List (String × α)) (k : String) (v : α)
    (hnd : (l.map Prod.fst).Nodup) (hmem : (k, v) ∈ l) : List.lookup k l = some v := by
  induction l with
  | nil => cases hmem
  | cons x rest ih =>
    obtain ⟨k1, v1⟩ := x
    rcases List.mem_cons.mp hmem with he | hr
    · cases he
      simp [List.lookup_cons]
    · have hk : k1 ≠ k := by
        rintro rfl
        exact (List.nodup_cons.mp hnd).1 (List.mem_map.mpr ⟨(k1, v), hr, rfl⟩)
      simp [List.lookup_cons, beq_false_of_ne (Ne.symm hk),
        ih (List.nodup_cons.mp hnd).2 hr]

theorem lookup_assocMerge_not_mem {α : Type} (init updates : List (String × α)) (k : String)
    (h : k ∉ updates.map Prod.fst) :
    List.lookup k (assocMerge init updates) = List.lookup k init := by
  induction updates generalizing init with
  | nil => rfl
  | cons x rest ih =>
    obtain ⟨k1, v1⟩ := x
    simp only [List.map_cons, List.mem_cons, not_or] at h
    show List.lookup k (assocMerge (assocSet init k1 v1) rest) = _
    rw [ih (assocSet init k1 v1) h.2, lookup_assocSet_ne _ _ _ _ (Ne.symm h.1)]

theorem lookup_assocMerge_mem {α : Type} (init updates : List (String × α)) (k : String)
    (v : α) (hnd : (updates.map Prod.fst).Nodup) (hl : List.lookup k updates = some v) :
    List.lookup k (assocMerge init updates) = some v := by
  induction updates generalizing init with
  | nil => simp at hl
  | cons x rest ih =>
    obtain ⟨k1, v1⟩ := x
    show List.lookup k (assocMerge (assocSet init k1 v1) rest) = some v
    by_cases h : k1 = k
    · subst h
      rw [List.lookup_cons_self] at hl
      cases hl
      rw [lookup_assocMerge_not_mem _ _ _ (List.nodup_cons.mp hnd).1,
        lookup_assocSet_self]
    · rw [List.lookup_cons, beq_false_of_ne (Ne.symm h)] at hl
      exact ih (assocSet init k1 v1) (List.nodup_cons.mp hnd).2 hl

theorem saveData_cons (k1 : String) (f1 : Field) (rest : List (String × Field))
    (inst : Instance) (tick : Nat) :
    saveData ((k1, f1) :: rest) inst tick =
      if k1 = "id" then saveData rest inst tick
      else
        match resolveField f1.options (inst.getAttr k1) tick with
        | some v => (k1, v) :: saveData rest inst tick
        | none => saveData rest inst tick := by
  by_cases h : k1 = "id" <;>
    cases hr : resolveField f1.options (inst.getAttr k1) tick <;>
      simp [saveData, h, hr, List.filter_cons, List.filterMap_cons]

theorem saveData_keys_sublist (fields : List (String × Field)) (inst : Instance)
    (tick : Nat) :
    List.Sublist ((saveData fields inst tick).map Prod.fst) (fields.map Prod.fst) := by
  induction fields with
  | nil => simp [saveData]
  | cons x rest ih =>
    obtain ⟨k1, f1⟩ := x
    rw [saveData_cons]
    by_cases h : k1 = "id"
    · rw [if_pos h]
      exact ih.trans (List.sublist_cons_self _ _)
    · rw [if_neg h]
      cases hr : resolveField f1.options (inst.getAttr k1) tick with
      | some v => simpa using ih.cons₂ k1
      | none => exact ih.trans (List.sublist_cons_self _ _)

theorem saveData_keys_ne_id (fields : List (String × Field)) (inst : Instance)
    (tick : Nat) (k : String) (hk : k ∈ (saveData fields inst tick).map Prod.fst) :
    k ≠ "id" := by
  rcases List.mem_map.mp hk with ⟨⟨k2, v⟩, hmem, hfst⟩
  rcases List.mem_filterMap.mp hmem with ⟨⟨k3, f⟩, hmem2, hg⟩
  rcases Option.map_eq_some'.mp hg with ⟨w, _, heq⟩
  cases heq
  have hp := (List.mem_filter.mp hmem2).2
  subst hfst
  simpa using hp

theorem lookup_saveData (fields : List (String × Field)) (inst : Instance) (tick : Nat)
    (fname : String) (fld : Field)
    (hnd : (fields.map Prod.fst).Nodup) (hmem : (fname, fld) ∈ fields)
    (hname : fname ≠ "id") :
    List.lookup fname (saveData fields inst tick) =
      resolveField fld.options (inst.getAttr fname) tick := by
  induction fields with
  | nil => cases hmem
  | cons x rest ih =>
    obtain ⟨k1, f1⟩ := x
    rcases List.mem_cons.mp hmem with he | hr
    · cases he
      rw [saveData_cons, if_neg hname]
      cases hres : resolveField fld.options (inst.getAttr fname) tick with
      | some v => simp [List.lookup_cons_self]
      | none =>
        apply lookup_eq_none_of_not_mem
        intro hkmem
        exact (List.nodup_cons.mp hnd).1 ((saveData_keys_sublist rest inst tick).subset hkmem)
    · have hk1 : k1 ≠ fname := by
        rintro rfl
        exact (List.nodup_cons.mp hnd).1 (List.mem_map.mpr ⟨(k1, fld), hr, rfl⟩)
      rw [saveData_cons]
      by_cases hid : k1 = "id"
      · rw [if_pos hid]
        exact ih (List.nodup_cons.mp hnd).2 hr
      · rw [if_neg hid]
        cases hres : resolveField f1.options (inst.getAttr k1) tick with
        | some v =>
          simp only [List.lookup_cons, beq_false_of_ne (Ne.symm hk1)]
          exact ih (List.nodup_cons.mp hnd).2 hr
        | none => exact ih (List.nodup_cons.mp hnd).2 hr

/-- Boolean attribute values are always stored as 1/0, whatever the
field's options. -/
theorem resolveField_bool (opts : FieldOptions) (b : Bool) (tick : Nat) :
    resolveField opts (.bool b) tick = some (.int (if b then 1 else 0)) := by
  cases h : opts.dflt <;> simp [resolveField, h, coerceStored]

/-- A select with no filters and default options returns the table's rows
as stored. -/
theorem selectRows_default (db : DB) (t : String) (fl : List (String × Field)) :
    selectRows db { tableName := t, fields := fl } = db.rows := by
  simp [selectRows, rowMatches, truthyNum_none, truthyStr_none]

theorem assocSet_keys {α : Type} (l : List (String × α)) (k : String) (v : α) :
    (assocSet l k v).map Prod.fst =
      if k ∈ l.map Prod.fst then l.map Prod.fst else l.map Prod.fst ++ [k] := by
  induction l with
  | nil => simp [assocSet]
  | cons x rest ih =>
    obtain ⟨k1, v1⟩ := x
    by_cases h : k1 = k
    · subst h
      simp [assocSet]
    · simp only [assocSet, if_neg h, List.map_cons, ih]
      by_cases hm : k ∈ rest.map Prod.fst
      · simp [hm, Ne.symm h]
      · simp [hm, Ne.symm h]

theorem assocSet_keys_nodup {α : Type} (l : List (String × α)) (k : String) (v : α)
    (h : (l.map Prod.fst).Nodup) : ((assocSet l k v).map Prod.fst).Nodup := by
  rw [assocSet_keys]
  by_cases hm : k ∈ l.map Prod.fst
  · simpa [hm]
  · simp [hm, List.nodup_append, h, List.disjoint_singleton]

theorem mem_assocSet {α : Type} (l : List (String × α)) (k : String) (v : α)
    (e : String × α) (he : e ∈ assocSet l k v) : e = (k, v) ∨ e ∈ l := by
  induction l with
  | nil => simpa [assocSet] using he
  | cons x rest ih =>
    obtain ⟨k1, v1⟩ := x
    by_cases h : k1 = k
    · subst h
      rcases (by simpa [assocSet] using he : e = (k1, v) ∨ e ∈ rest) with h1 | h1
      · exact Or.inl h1
      · exact Or.inr (List.mem_cons_of_mem _ h1)
    · rcases (by simpa [assocSet, h] using he :
          e = (k1, v1) ∨ e ∈ assocSet rest k v) with h1 | h1
      · exact Or.inr (by simp [h1])
      · rcases ih h1 with h2 | h2
        · exact Or.inl h2
        · exact Or.inr (List.mem_cons_of_mem _ h2)

theorem assocMerge_cons_of_ne {α : Type} (x : String × α)
    (init updates : List (String × α))
    (h : ∀ k ∈ updates.map Prod.fst, k ≠ x.1) :
    assocMerge (x :: init) updates = x :: assocMerge init updates := by
  induction updates generalizing init with
  | nil => rfl
  | cons u rest ih =>
    obtain ⟨k1, v1⟩ := u
    obtain ⟨kx, vx⟩ := x
    show assocMerge (assocSet ((kx, vx) :: init) k1 v1) rest = _
    have hk : k1 ≠ kx := h k1 (by simp)
    rw [show assocSet ((kx, vx) :: init) k1 v1 = (kx, vx) :: assocSet init k1 v1 by
      simp [assocSet, Ne.symm hk]]
    exact ih (assocSet init k1 v1) (fun k hkm => h k (by simp [hkm]))

theorem assocMerge_nil_left {α : Type} (updates : List (String × α))
    (hnd : (updates.map Prod.fst).Nodup) : assocMerge [] updates = updates := by
  induction updates with
  | nil => rfl
  | cons u rest ih =>
    obtain ⟨k1, v1⟩ := u
    show assocMerge (assocSet [] k1 v1) rest = _
    rw [show assocSet ([] : List (String × α)) k1 v1 = [(k1, v1)] from rfl,
      assocMerge_cons_of_ne (k1, v1) [] rest
        (fun k hkm heq => (List.nodup_cons.mp hnd).1 (heq ▸ hkm)),
      ih (List.nodup_cons.mp hnd).2]

theorem lookup_foldl_assocSet {α β : Type} (key : β → String) (mk : β → α)
    (regs : List β) (acc : List (String × α)) (name : String) :
    List.lookup name (regs.foldl (fun reg r => assocSet reg (key r) (mk r)) acc) =
      match regs.reverse.find? (fun r => key r == name) with
      | some r => some (mk r)
      | none => List.lookup name acc := by
  induction regs generalizing acc with
  | nil => rfl
  | cons r rest ih =>
    simp only [List.foldl_cons, List.reverse_cons, List.find?_append, ih]
    cases hfind : rest.reverse.find? (fun r => key r == name) with
    | some r2 => simp [Option.or]
    | none =>
      by_cases h : key r = name
      · subst h
        simp [List.find?, lookup_assocSet_self, Option.or]
      · simp [List.find?, beq_false_of_ne h, lookup_assocSet_ne _ _ _ _ h, Option.or]

theorem mem_foldl_assocSet {α β : Type} (key : β → String) (mk : β → α)
    (regs : List β) (acc : List (String × α)) (e : String × α)
    (he : e ∈ regs.foldl (fun reg r => assocSet reg (key r) (mk r)) acc) :
    e ∈ acc ∨ ∃ r ∈ regs, e = (key r, mk r) := by
  induction regs generalizing acc with
  | nil => exact Or.inl he
  | cons r rest ih =>
    rcases ih (assocSet acc (key r) (mk r)) he with h1 | h1
    · rcases mem_assocSet _ _ _ _ h1 with h2 | h2
      · exact Or.inr ⟨r, by simp, h2⟩
      · exact Or.inl h2
    · rcases h1 with ⟨r2, hr2, he2⟩
      exact Or.inr ⟨r2, by simp [hr2], he2⟩

theorem nodup_foldl_assocSet {α β : Type} (key : β → String) (mk : β → α)
    (regs : List β) (acc : List (String × α)) (h : (acc.map Prod.fst).Nodup) :
    ((regs.foldl (fun reg r => assocSet reg (key r) (mk r)) acc).map Prod.fst).Nodup := by
  induction regs generalizing acc with
  | nil => exact h
  | cons r rest ih => exact ih _ (assocSet_keys_nodup _ _ _ h)

/-- `getFields` for a model whose declared properties avoid the key `id`:
the implicit `id` `AutoField` comes first, followed by the declared fields
in declaration order. -/
theorem getFields_eq (decl : ModelDecl)
    (hid : "id" ∉ decl.declaredFields.map Prod.fst)
    (hnd : (decl.declaredFields.map Prod.fst).Nodup) :
    getFields decl = ("id", autoField) :: decl.declaredFields := by
  unfold getFields
  rw [assocMerge_cons_of_ne ("id", autoField) [] decl.declaredFields
      (fun k hk heq => hid (by rw [show ("id" : String) = k from heq.symm]; exact hk)),
    assocMerge_nil_left decl.declaredFields hnd]

/-- With pairwise-distinct permission ids (a primary-key invariant),
`find?` by id retrieves exactly the matching row. -/
theorem find?_perm_of_mem (perms : List Permission) (pid : Int) (p : Permission)
    (hnd : (perms.map Permission.id).Nodup) (hp : p ∈ perms) (hid : p.id = pid) :
    perms.find? (fun q => q.id == pid) = some p := by
  induction perms with
  | nil => cases hp
  | cons q rest ih =>
    rcases List.mem_cons.mp hp with he | hr
    · subst he
      simp [List.find?, hid]
    · have hq : q.id ≠ pid := by
        intro he2
        exact (List.nodup_cons.mp hnd).1
          (he2 ▸ hid ▸ List.mem_map.mpr ⟨p, hr, rfl⟩)
      simp [List.find?, beq_false_of_ne hq, ih (List.nodup_cons.mp hnd).2 hr]

theorem permCheck_iff (db : AuthDB) (pid : Int) (code : String)
    (hids : (db.permissions.map Permission.id).Nodup) :
    codenameCheck db pid code = true ↔
      ∃ p ∈ db.permissions, p.id = pid ∧ p.codename = code := by
  unfold codenameCheck
  cases hf : db.permissions.find? (fun p => p.id == pid) with
  | none =>
    simp only [Bool.false_eq_true, false_iff]
    rintro ⟨p, hp, hpid, _⟩
    rw [find?_perm_of_mem db.permissions pid p hids hp hpid] at hf
    cases hf
  | some p =>
    simp only [beq_iff_eq]
    constructor
    · intro hcode
      exact ⟨p, List.mem_of_find?_eq_some hf, by simpa using List.find?_some hf, hcode⟩
    · rintro ⟨q, hq, hqid, hqcode⟩
      rw [find?_perm_of_mem db.permissions pid q hids hq hqid] at hf
      cases hf
      exact hqcode

theorem userPerm_any_iff (db : AuthDB) (uid : Int) (code : String)
    (hids : (db.permissions.map Permission.id).Nodup) :
    ((db.userPermissions.filter (fun up => up.userId == uid)).any
      (fun userPerm => codenameCheck db userPerm.permissionId code)) = true ↔
      ∃ up ∈ db.userPermissions, up.userId = uid ∧
        ∃ p ∈ db.permissions, p.id = up.permissionId ∧ p.codename = code := by
  rw [List.any_eq_true]
  constructor
  · rintro ⟨up, hmem, hc⟩
    have h2 := List.mem_filter.mp hmem
    exact ⟨up, h2.1, by simpa using h2.2,
      (permCheck_iff db up.permissionId code hids).mp hc⟩
  · rintro ⟨up, hmem, huid, hp⟩
    exact ⟨up, List.mem_filter.mpr ⟨hmem, by simpa using huid⟩,
      (permCheck_iff db up.permissionId code hids).mpr hp⟩

theorem groupPerm_any_iff (db : AuthDB) (uid : Int) (code : String)
    (hids : (db.permissions.map Permission.id).Nodup) :
    ((db.userGroups.filter (fun ug => ug.userId == uid)).any (fun userGroup =>
      (db.groupPermissions.filter
        (fun gp => gp.groupId == userGroup.groupId)).any
          (fun groupPerm => codenameCheck db groupPerm.permissionId code))) = true ↔
      ∃ ug ∈ db.userGroups, ug.userId = uid ∧
        ∃ gp ∈ db.groupPermissions, gp.groupId = ug.groupId ∧
          ∃ p ∈ db.permissions, p.id = gp.permissionId ∧ p.codename = code := by
  rw [List.any_eq_true]
  constructor
  · rintro ⟨ug, hmem, hinner⟩
    have h2 := List.mem_filter.mp hmem
    rcases List.any_eq_true.mp hinner with ⟨gp, hgmem, hc⟩
    have h3 := List.mem_filter.mp hgmem
    exact ⟨ug, h2.1, by simpa using h2.2, gp, h3.1, by simpa using h3.2,
      (permCheck_iff db gp.permissionId code hids).mp hc⟩
  · rintro ⟨ug, hmem, huid, gp, hgmem, hgid, hp⟩
    exact ⟨ug, List.mem_filter.mpr ⟨hmem, by simpa using huid⟩,
      List.any_eq_true.mpr ⟨gp, List.mem_filter.mpr ⟨hgmem, by simpa using hgid⟩,
        (permCheck_iff db gp.permissionId code hids).mpr hp⟩⟩

/-- The insert branch of `Model.save()`, as one equation. -/
theorem Model.save_insert (fields : List (String × Field)) (tableName : String)
    (inst : Instance) (db : DB) (tick : Nat) (hfresh : truthy inst.idVal = false) :
    Model.save fields tableName inst db tick =
      (⟨assocSet inst.attrs "id" (.int db.nextId)⟩,
       { rows := db.rows ++ [("id", Value.int db.nextId) :: saveData fields inst tick],
         nextId := db.nextId + 1 },
       ⟨"INSERT INTO " ++ tableName ++ " (" ++
          String.intercalate ", " ((saveData fields inst tick).map (fun kv => kv.1)) ++
          ") VALUES (" ++
          String.intercalate ", "
            (((saveData fields inst tick).map (fun kv => kv.1)).map (fun _ => "?")) ++
          ")",
        (saveData fields inst tick).map (fun kv => kv.2)⟩) := by
  simp [Model.save, hfresh]

/-- The update branch of `Model.save()`, as one equation. -/
theorem Model.save_update (fields : List (String × Field)) (tableName : String)
    (inst : Instance) (db : DB) (tick : Nat) (hpers : truthy inst.idVal = true) :
    Model.save fields tableName inst db tick =
      (inst,
       { rows := db.rows.map (fun r =>
           if sqlEq ((List.lookup "id" r).getD .undefined) inst.idVal then
             assocMerge r (saveData fields inst tick)
           else r),
         nextId := db.nextId },
       ⟨"UPDATE " ++ tableName ++ " SET " ++
          String.intercalate ", "
            ((saveData fields inst tick).map (fun kv => kv.1 ++ " = ?")) ++
          " WHERE id = ?",
        (saveData fields inst tick).map (fun kv => kv.2) ++ [inst.idVal]⟩) := by
  simp [Model.save, hpers]

/-! ### Claim theorems -/

/-- C4: for every options record, `Field.getConstraints` emits exactly the
markers PRIMARY KEY, AUTOINCREMENT, UNIQUE, NOT NULL (the latter
suppressed when nullable or primary key) in that order, followed by a
DEFAULT clause with string defaults single-quoted, boolean defaults as
1/0, other literals verbatim, and function defaults never embedded. -/
theorem C4_constraints_follow_spec_order (o : FieldOptions) :
    Field.getConstraints o = constraintsSpec o := by
  obtain ⟨pk, uq, nl, ai, ml, df, od, ou⟩ := o
  cases pk <;> cases uq <;> cases nl <;> cases ai <;>
    rcases df with _ | (v | f) <;>
      first
        | rfl
        | (cases v <;> rfl)

/-- C2: every `all()` compiles to exactly one statement of the shape
`SELECT * FROM <table> [WHERE c1 = ? AND ...] [ORDER BY f dir] [LIMIT n]
[OFFSET m]`, the WHERE clause a conjunction of equality predicates only,
one per filter key, with the filter values as parameters in key order. -/
theorem C2_all_compiles_select_shape (qs : QuerySet) :
    ∃ whereC orderC limitC offsetC,
      qs.allQuery =
        ⟨"SELECT * FROM " ++ qs.tableName ++ whereC ++ orderC ++ limitC ++ offsetC,
         qs.filters.map (fun kv => kv.2)⟩ ∧
      ((qs.filters = [] ∧ whereC = "") ∨
        (qs.filters ≠ [] ∧
          whereC = " WHERE " ++
            String.intercalate " AND " (qs.filters.map (fun kv => kv.1 ++ " = ?")))) ∧
      (orderC = "" ∨
        ∃ f d, qs.options.orderBy = some f ∧
          orderC = " ORDER BY " ++ f ++ " " ++ d ∧ (d = "ASC" ∨ d = "DESC")) ∧
      (limitC = "" ∨
        ∃ n : Int, qs.options.limit = some n ∧ n ≠ 0 ∧
          limitC = " LIMIT " ++ toString n) ∧
      (offsetC = "" ∨
        ∃ m : Int, qs.options.offset = some m ∧ m ≠ 0 ∧
          offsetC = " OFFSET " ++ toString m) := by
  refine ⟨whereClause qs.filters, orderClause qs.options, limitClause qs.options,
    offsetClause qs.options, rfl, ?_, ?_, ?_, ?_⟩
  · rcases hf : qs.filters with _ | ⟨a, l⟩
    · exact Or.inl ⟨rfl, rfl⟩
    · exact Or.inr ⟨by simp, by simp [whereClause, whereConditions]⟩
  · rcases ho : qs.options.orderBy with _ | f
    · exact Or.inl (by simp [orderClause, ho, truthyStr_none])
    · by_cases hf : f = ""
      · subst hf
        exact Or.inl (by simp [orderClause, ho, truthyStr])
      · rcases hd : qs.options.orderDirection with _ | d
        · exact Or.inr ⟨f, "ASC", rfl,
            by simp [orderClause, ho, hd, truthyStr_some f hf], Or.inl rfl⟩
        · cases d
          · exact Or.inr ⟨f, "ASC", rfl,
              by simp [orderClause, ho, hd, truthyStr_some f hf, Dir.render], Or.inl rfl⟩
          · exact Or.inr ⟨f, "DESC", rfl,
              by simp [orderClause, ho, hd, truthyStr_some f hf, Dir.render], Or.inr rfl⟩
  · rcases hl : qs.options.limit with _ | n
    · exact Or.inl (by simp [limitClause, hl, truthyNum_none])
    · by_cases hn : n = 0
      · subst hn
        exact Or.inl (by simp [limitClause, hl, truthyNum_zero])
      · exact Or.inr ⟨n, rfl, hn, by simp [limitClause, hl, truthyNum_some n hn]⟩
  · rcases hm : qs.options.offset with _ | m
    · exact Or.inl (by simp [offsetClause, hm, truthyNum_none])
    · by_cases hm0 : m = 0
      · subst hm0
        exact Or.inl (by simp [offsetClause, hm, truthyNum_zero])
      · exact Or.inr ⟨m, rfl, hm0, by simp [offsetClause, hm, truthyNum_some m hm0]⟩

/-- C6: instance `delete()` fails with the invalid-operation error when
the id is not populated, and otherwise executes `DELETE FROM <table>
WHERE id = ?` parameterised with that id. -/
theorem C6_delete_requires_id (tableName : String) (inst : Instance) (db : DB) :
    (truthy inst.idVal = false →
      Model.delete tableName inst db = .error "Cannot delete unsaved object") ∧
    (truthy inst.idVal = true →
      ∃ db2, Model.delete tableName inst db =
        .ok (inst, db2, ⟨"DELETE FROM " ++ tableName ++ " WHERE id = ?", [inst.idVal]⟩)) := by
  constructor
  · intro h
    simp [Model.delete, h]
  · intro h
    simp [Model.delete, h]

theorem C6_witness :
    Model.delete "posts" ⟨[]⟩ { rows := [], nextId := 1 } =
      .error "Cannot delete unsaved object" ∧
    ∃ db2, Model.delete "posts" c3inst { rows := [], nextId := 1 } =
      .ok (c3inst, db2,
        ⟨"DELETE FROM " ++ "posts" ++ " WHERE id = ?", [c3inst.idVal]⟩) :=
  ⟨(C6_delete_requires_id "posts" ⟨[]⟩ { rows := [], nextId := 1 }).1 (by decide),
   (C6_delete_requires_id "posts" c3inst { rows := [], nextId := 1 }).2 (by decide)⟩

/-- C9: the builder operations filter/orderBy/limit/offset execute no SQL
and leave the database unchanged; each terminal operation (all, first,
count, delete) executes exactly one statement. -/
theorem C9_lazy_until_terminal (qs : QuerySet) (fs : List (String × Value))
    (f : String) (d : Dir) (n m : Int) (db : DB) :
    (qs.filterRun fs db).2 = (db, []) ∧
    (qs.orderByRun f d db).2 = (db, []) ∧
    (qs.limitRun n db).2 = (db, []) ∧
    (qs.offsetRun m db).2 = (db, []) ∧
    (qs.allRun db).2 = (db, [qs.allQuery]) ∧
    (qs.firstRun db).2 = (db, [(qs.limitTo 1).allQuery]) ∧
    (qs.countRun db).2 = (db, [qs.countQuery]) ∧
    (qs.deleteRun db).2.2 = [qs.deleteQuery] :=
  ⟨rfl, rfl, rfl, rfl, rfl, rfl, rfl, rfl⟩

/-- C10 as stated is false: on a QuerySet whose stored limit is already
non-zero, `limit(0)` changes the compiled query (it erases the LIMIT
clause), so it is not the identity on the compiled query. -/
theorem C10_counterexample :
    QuerySet.allQuery (QuerySet.limitTo c10qs 0) ≠ QuerySet.allQuery c10qs := by
  decide

/-- C10 (amended): when the stored limit is absent or zero, `limit(0)`
leaves the compiled query — and the selected rows — unchanged (the LIMIT
clause is emitted only for a non-zero stored value), and likewise for
`offset(0)`; in particular `q.limit(0).all()` is never an empty-result
truncation. -/
theorem C10_limit_offset_zero_amended (qs : QuerySet) :
    ((qs.options.limit = none ∨ qs.options.limit = some 0) →
      (qs.limitTo 0).allQuery = qs.allQuery ∧
      ∀ db : DB, selectRows db (qs.limitTo 0) = selectRows db qs) ∧
    ((qs.options.offset = none ∨ qs.options.offset = some 0) →
      (qs.offsetBy 0).allQuery = qs.allQuery ∧
      ∀ db : DB, selectRows db (qs.offsetBy 0) = selectRows db qs) := by
  constructor
  · intro h
    constructor
    · rcases h with h | h <;>
        simp [QuerySet.allQuery, QuerySet.limitTo, limitClause, whereClause,
          orderClause, offsetClause, h, truthyNum_zero, truthyNum_none]
    · intro db
      rcases h with h | h <;>
        simp [selectRows, QuerySet.limitTo, h, truthyNum_zero, truthyNum_none]
  · intro h
    constructor
    · rcases h with h | h <;>
        simp [QuerySet.allQuery, QuerySet.offsetBy, limitClause, whereClause,
          orderClause, offsetClause, h, truthyNum_zero, truthyNum_none]
    · intro db
      rcases h with h | h <;>
        simp [selectRows, QuerySet.offsetBy, h, truthyNum_zero, truthyNum_none]

theorem C10_witness :
    (QuerySet.limitTo c10wqs 0).allQuery = c10wqs.allQuery ∧
    selectRows c10wdb (QuerySet.limitTo c10wqs 0) = selectRows c10wdb c10wqs ∧
    (QuerySet.offsetBy c10wqs 0).allQuery = c10wqs.allQuery := by
  have h := C10_limit_offset_zero_amended c10wqs
  exact ⟨(h.1 (Or.inl rfl)).1, (h.1 (Or.inl rfl)).2 c10wdb, (h.2 (Or.inl rfl)).1⟩

/-- C1: per declared non-`id` field, `save()` resolves the stored value in
the claimed order — an attribute still holding the unassigned field
descriptor falls back to the default when one exists (callable defaults
invoked at the save tick) and otherwise the column is skipped; a
null/undefined attribute with a default gets the default; a boolean value
is coerced to 1/0.  The first conjunct ties the per-field rule to the
`data` record `save()` actually assembles. -/
theorem C1_save_value_resolution
    (fields : List (String × Field)) (inst : Instance) (tick : Nat)
    (fname : String) (fld : Field)
    (hnd : (fields.map Prod.fst).Nodup)
    (hmem : (fname, fld) ∈ fields) (hid : fname ≠ "id") :
    List.lookup fname (saveData fields inst tick) =
      resolveField fld.options (inst.getAttr fname) tick ∧
    (inst.getAttr fname = .fieldRef →
      resolveField fld.options (inst.getAttr fname) tick =
        fld.options.dflt.map (fun d => coerceStored (applyDefault d tick))) ∧
    ((inst.getAttr fname = .undefined ∨ inst.getAttr fname = .null) →
      ∀ d, fld.options.dflt = some d →
        resolveField fld.options (inst.getAttr fname) tick =
          some (coerceStored (applyDefault d tick))) ∧
    ((inst.getAttr fname = .undefined ∨ inst.getAttr fname = .null) →
      fld.options.dflt = none →
      resolveField fld.options (inst.getAttr fname) tick =
        some (inst.getAttr fname)) ∧
    (∀ b, inst.getAttr fname = .bool b →
      resolveField fld.options (inst.getAttr fname) tick =
        some (.int (if b then 1 else 0))) ∧
    (∀ f, fld.options.dflt = some (.func f) → inst.getAttr fname = .fieldRef →
      resolveField fld.options (inst.getAttr fname) tick =
        some (coerceStored (f tick))) := by
  refine ⟨lookup_saveData fields inst tick fname fld hnd hmem hid, ?_, ?_, ?_, ?_, ?_⟩
  · intro hv
    rw [hv]
    cases hd : fld.options.dflt with
    | none => simp [resolveField, hd]
    | some d =>
      cases ha : applyDefault d tick <;>
        simp [resolveField, hd, ha, coerceStored]
  · intro hv d hd
    rcases hv with hv | hv <;> rw [hv] <;> simp [resolveField, hd]
  · intro hv hd
    rcases hv with hv | hv <;> rw [hv] <;> simp [resolveField, hd, coerceStored]
  · intro b hv
    rw [hv]
    exact resolveField_bool fld.options b tick
  · intro f hf hv
    rw [hv]
    cases ha : f tick <;> simp [resolveField, hf, applyDefault, ha, coerceStored]

theorem C1_witness :
    List.lookup "isPublished" (saveData postFields postInst 0) =
      resolveField boolField.options (postInst.getAttr "isPublished") 0 ∧
    (postInst.getAttr "isPublished" = .fieldRef →
      resolveField boolField.options (postInst.getAttr "isPublished") 0 =
        boolField.options.dflt.map (fun d => coerceStored (applyDefault d 0))) ∧
    ((postInst.getAttr "isPublished" = .undefined ∨ postInst.getAttr "isPublished" = .null) →
      ∀ d, boolField.options.dflt = some d →
        resolveField boolField.options (postInst.getAttr "isPublished") 0 =
          some (coerceStored (applyDefault d 0))) ∧
    ((postInst.getAttr "isPublished" = .undefined ∨ postInst.getAttr "isPublished" = .null) →
      boolField.options.dflt = none →
      resolveField boolField.options (postInst.getAttr "isPublished") 0 =
        some (postInst.getAttr "isPublished")) ∧
    (∀ b, postInst.getAttr "isPublished" = .bool b →
      resolveField boolField.options (postInst.getAttr "isPublished") 0 =
        some (.int (if b then 1 else 0))) ∧
    (∀ f, boolField.options.dflt = some (.func f) →
      postInst.getAttr "isPublished" = .fieldRef →
      resolveField boolField.options (postInst.getAttr "isPublished") 0 =
        some (coerceStored (f 0))) :=
  C1_save_value_resolution postFields postInst 0 "isPublished" boolField
    (by decide) (by simp [postFields]) (by decide)

/-- C3's terminal-Deleted-state part is false on the code: after a
successful `delete()`, a second `delete()` on the very same instance
succeeds again (the instance keeps its id and no Deleted state is
tracked), instead of failing. -/
theorem C3_counterexample :
    (Model.delete "posts" c3inst c3db).toOption.map
      (fun r => (Model.delete "posts" r.1 r.2.1).isOk) = some true := by
  decide

/-- C3 (amended): an instance with a falsy id inserts on `save()` and
comes back with the generated id populated (Persisted); an instance with
a truthy id updates; `delete()` with a truthy id succeeds and returns the
instance unchanged — so no terminal Deleted state exists: a further
`delete()` succeeds again and a further `save()` takes the update path. -/
theorem C3_state_machine_amended
    (fields : List (String × Field)) (tableName : String) (inst : Instance)
    (db : DB) (tick : Nat) :
    (truthy inst.idVal = false → 0 < db.nextId →
      truthy (Model.save fields tableName inst db tick).1.idVal = true ∧
      (Model.save fields tableName inst db tick).1.idVal = .int db.nextId ∧
      ∃ cols ph,
        (Model.save fields tableName inst db tick).2.2.sql =
          "INSERT INTO " ++ tableName ++ " (" ++ cols ++ ") VALUES (" ++ ph ++ ")") ∧
    (truthy inst.idVal = true →
      (Model.save fields tableName inst db tick).1 = inst ∧
      ∃ setC,
        (Model.save fields tableName inst db tick).2.2.sql =
          "UPDATE " ++ tableName ++ " SET " ++ setC ++ " WHERE id = ?") ∧
    (truthy inst.idVal = true →
      ∃ db2 s, Model.delete tableName inst db = .ok (inst, db2, s) ∧
        (Model.delete tableName inst db2).isOk = true) := by
  refine ⟨?_, ?_, ?_⟩
  · intro h hpos
    have hne : db.nextId ≠ 0 := by omega
    rw [Model.save_insert fields tableName inst db tick h]
    refine ⟨?_, ?_, ?_⟩
    · simp [Instance.idVal, Instance.getAttr, lookup_assocSet_self, truthy, hne]
    · simp [Instance.idVal, Instance.getAttr, lookup_assocSet_self]
    · refine ⟨String.intercalate ", " ((saveData fields inst tick).map (fun kv => kv.1)),
        String.intercalate ", "
          (((saveData fields inst tick).map (fun kv => kv.1)).map (fun _ => "?")), ?_⟩
      simp
  · intro h
    rw [Model.save_update fields tableName inst db tick h]
    refine ⟨rfl,
      String.intercalate ", " ((saveData fields inst tick).map (fun kv => kv.1 ++ " = ?")),
      ?_⟩
    simp
  · intro h
    refine ⟨deleteById db inst.idVal,
      ⟨"DELETE FROM " ++ tableName ++ " WHERE id = ?", [inst.idVal]⟩, ?_, ?_⟩
    · simp [Model.delete, h]
    · simp [Model.delete, h, Except.isOk, Except.toBool]

theorem C3_witness :
    (truthy (Model.save postFields "posts" postInst ⟨[], 1⟩ 0).1.idVal = true ∧
      (Model.save postFields "posts" postInst ⟨[], 1⟩ 0).1.idVal = .int 1 ∧
      ∃ cols ph,
        (Model.save postFields "posts" postInst ⟨[], 1⟩ 0).2.2.sql =
          "INSERT INTO " ++ "posts" ++ " (" ++ cols ++ ") VALUES (" ++ ph ++ ")") ∧
    ((Model.save postFields "posts" c3inst c3db 0).1 = c3inst ∧
      ∃ setC,
        (Model.save postFields "posts" c3inst c3db 0).2.2.sql =
          "UPDATE " ++ "posts" ++ " SET " ++ setC ++ " WHERE id = ?") ∧
    (∃ db2 s, Model.delete "posts" c3inst c3db = .ok (c3inst, db2, s) ∧
      (Model.delete "posts" c3inst db2).isOk = true) :=
  ⟨(C3_state_machine_amended postFields "posts" postInst ⟨[], 1⟩ 0).1 (by decide) (by decide),
   (C3_state_machine_amended postFields "posts" c3inst c3db 0).2.1 (by decide),
   (C3_state_machine_amended postFields "posts" c3inst c3db 0).2.2 (by decide)⟩

/-- C7: saving an instance whose declared field value is `true` stores 1,
and reading the row back through `QuerySet` hydration yields that stored
value unchanged — which is truthy-equivalent to `true`. -/
theorem C7_boolean_roundtrip
    (fields : List (String × Field)) (inst : Instance) (db : DB) (tick : Nat)
    (tableName fname : String) (fld : Field)
    (hnd : (fields.map Prod.fst).Nodup)
    (hmem : (fname, fld) ∈ fields)
    (hid : fname ≠ "id")
    (hval : inst.getAttr fname = .bool true)
    (hfresh : truthy inst.idVal = false) :
    ∃ hinst ∈ (QuerySet.allRun
        { tableName := tableName, fields := fields }
        (Model.save fields tableName inst db tick).2.1).1,
      hinst.getAttr fname = .int 1 ∧ truthy (hinst.getAttr fname) = true := by
  have hrow : List.lookup fname
      (("id", Value.int db.nextId) :: saveData fields inst tick) = some (.int 1) := by
    simp only [List.lookup_cons, beq_false_of_ne hid]
    rw [lookup_saveData fields inst tick fname fld hnd hmem hid, hval,
      resolveField_bool]
    rfl
  have hnodup_row :
      (((("id", Value.int db.nextId) :: saveData fields inst tick)).map Prod.fst).Nodup := by
    simp only [List.map_cons]
    refine List.nodup_cons.mpr ⟨?_, (saveData_keys_sublist fields inst tick).nodup hnd⟩
    intro hmem2
    exact saveData_keys_ne_id fields inst tick "id" hmem2 rfl
  have hmerge := lookup_assocMerge_mem (freshAttrs fields)
      (("id", Value.int db.nextId) :: saveData fields inst tick) fname (.int 1)
      hnodup_row hrow
  have hattr : (hydrate fields
      (("id", Value.int db.nextId) :: saveData fields inst tick)).getAttr fname =
        Value.int 1 := by
    simp only [hydrate, Instance.getAttr, hmerge, Option.getD_some]
  refine ⟨hydrate fields (("id", Value.int db.nextId) :: saveData fields inst tick),
    ?_, hattr, by rw [hattr]; rfl⟩
  simp only [QuerySet.allRun, Model.save_insert fields tableName inst db tick hfresh,
    selectRows_default]
  exact List.mem_map_of_mem _ (by simp)

theorem C7_witness :
    ∃ hinst ∈ (QuerySet.allRun
        { tableName := "posts", fields := postFields }
        (Model.save postFields "posts" postInst ⟨[], 1⟩ 0).2.1).1,
      hinst.getAttr "isPublished" = .int 1 ∧
      truthy (hinst.getAttr "isPublished") = true :=
  C7_boolean_roundtrip postFields postInst ⟨[], 1⟩ 0 "posts" "isPublished" boolField
    (by decide) (by simp [postFields]) (by decide) (by decide) (by decide)

/-- C5: after any bootstrap sequence of `registerModel` calls, the
registry holds exactly one metadata entry per model name, lookup returns
the metadata of the last registration under that name (re-registration
overwrites), and every entry's derived field metadata starts with the
implicit auto-incrementing primary-key `id` field, before all declared
fields. -/
theorem C5_registry_unique_and_id_first
    (regs : List (ModelDecl × AdminOptions))
    (hid : ∀ r ∈ regs, "id" ∉ r.1.declaredFields.map Prod.fst)
    (hnd : ∀ r ∈ regs, (r.1.declaredFields.map Prod.fst).Nodup) :
    ((registerAll regs).map Prod.fst).Nodup ∧
    (∀ name, List.lookup name (registerAll regs) =
      (lastRegistration regs name).map (fun r => mkMetadata r.1 r.2)) ∧
    (∀ e ∈ registerAll regs,
      e.2.fields =
        ("id", mkFieldMetadata "id" autoField) ::
          e.2.decl.declaredFields.map (fun kv => (kv.1, mkFieldMetadata kv.1 kv.2)) ∧
      autoField.options.primaryKey = true ∧
      autoField.options.autoIncrement = true) := by
  refine ⟨?_, ?_, ?_⟩
  · exact nodup_foldl_assocSet (fun r => r.1.name)
      (fun r => mkMetadata r.1 r.2) regs [] (by simp)
  · intro name
    have h := lookup_foldl_assocSet (fun r => r.1.name)
      (fun r => mkMetadata r.1 r.2) regs [] name
    unfold lastRegistration
    cases hfind : regs.reverse.find? (fun r => r.1.name == name) with
    | some r =>
      rw [hfind] at h
      simpa using h
    | none =>
      rw [hfind] at h
      simpa using h
  · intro e he
    have he2 : e ∈ regs.foldl
        (fun reg r => assocSet reg r.1.name (mkMetadata r.1 r.2)) [] := he
    rcases mem_foldl_assocSet (fun r => r.1.name)
        (fun r => mkMetadata r.1 r.2) regs [] e he2 with h1 | h1
    · cases h1
    · rcases h1 with ⟨r, hr, rfl⟩
      refine ⟨?_, rfl, rfl⟩
      show (mkMetadata r.1 r.2).fields = _
      rw [show (mkMetadata r.1 r.2).fields =
          (getFields r.1).map (fun kv => (kv.1, mkFieldMetadata kv.1 kv.2)) from rfl,
        getFields_eq r.1 (hid r hr) (hnd r hr)]
      simp [mkMetadata]

theorem C5_witness :
    ((registerAll c5regs).map Prod.fst).Nodup ∧
    (List.lookup "Post" (registerAll c5regs) =
      (lastRegistration c5regs "Post").map (fun r => mkMetadata r.1 r.2)) ∧
    ((mkMetadata postDecl2 { displayName := some "Posts" }).fields =
      ("id", mkFieldMetadata "id" autoField) ::
        postDecl2.declaredFields.map (fun kv => (kv.1, mkFieldMetadata kv.1 kv.2))) := by
  have h := C5_registry_unique_and_id_first c5regs (by decide) (by decide)
  refine ⟨h.1, h.2.1 "Post", ?_⟩
  have hm : ("Post", mkMetadata postDecl2 { displayName := some "Posts" }) ∈
      registerAll c5regs := by
    rw [show registerAll c5regs =
      [("Post", mkMetadata postDecl2 { displayName := some "Posts" })] from rfl]
    exact List.mem_singleton_self _
  exact (h.2.2 ("Post", mkMetadata postDecl2 { displayName := some "Posts" }) hm).1

/-- C8: for an existing non-superuser user (and pairwise-distinct
permission ids, the primary-key invariant), `hasModelPermission` returns
true exactly when the codename `<action>_<lowercased model name>` is
granted directly through a `UserPermission` row or through some group the
user belongs to; in particular an ungranted model is denied every action,
and a grant of only `add_post` permits `add` but not `change` on Post. -/
theorem C8_hasModelPermission_iff_granted
    (db : AuthDB) (userId : Int) (action modelName : String) (u : User)
    (hu : db.users.find? (fun x => x.id == userId) = some u)
    (hsu : u.isSuperuser = false)
    (hids : (db.permissions.map Permission.id).Nodup) :
    PermissionService.hasModelPermission db userId action modelName = true ↔
      PermGranted db userId (action ++ "_" ++ jsToLowerCase modelName) := by
  unfold PermissionService.hasModelPermission PermissionService.hasPermission
  rw [hu]
  simp only [hsu, Bool.false_eq_true, if_false, Bool.or_eq_true]
  exact or_congr
    (userPerm_any_iff db userId (action ++ "_" ++ jsToLowerCase modelName) hids)
    (groupPerm_any_iff db userId (action ++ "_" ++ jsToLowerCase modelName) hids)

theorem C8_witness :
    (PermissionService.hasModelPermission c8db 1 "add" "Post" = true ↔
      PermGranted c8db 1 ("add" ++ "_" ++ jsToLowerCase "Post")) ∧
    (PermissionService.hasModelPermission c8db 1 "change" "Post" = true ↔
      PermGranted c8db 1 ("change" ++ "_" ++ jsToLowerCase "Post")) ∧
    PermissionService.hasModelPermission c8db 1 "add" "Post" = true ∧
    PermissionService.hasModelPermission c8db 1 "change" "Post" = false :=
  ⟨C8_hasModelPermission_iff_granted c8db 1 "add" "Post" ⟨1, false⟩
      (by decide) rfl (by decide),
   C8_hasModelPermission_iff_granted c8db 1 "change" "Post" ⟨1, false⟩
      (by decide) rfl (by decide),
   by decide, by decide⟩

end Nango
